import Mathlib

/-!
# Verification of the date-filtered work-item retrieval and deduplication pipeline

Shallow embedding of the core of the `cognitiveoffload` repository:

* instants are epoch milliseconds (`Int`), mirroring the JavaScript `Date`
  value model; an invalid `Date` (NaN epoch) is represented by `Option`
  (`none` = invalid/absent) or by the `DateVal` type where the code
  distinguishes "absent" from "present but invalid";
* the DB storage layer (`server/storage.ts`, `DatabaseStorage`) is modelled
  over an explicit list of rows; drizzle query combinators (`gte`, `lt`,
  `isNull`, `isNotNull`, `and`, `or`) become boolean predicates with SQL
  semantics (a comparison against a NULL column is not satisfied);
* the ingestion pipeline (`server/routes.ts`, `processGmailEmails` /
  `processSlackMessages`) is modelled as explicit state passing over a
  `Store`; the external collaborators (Gmail/Slack HTTP APIs, the AI
  classifier) become oracle parameters, exactly at the `await` boundaries
  of the source.
-/

namespace CogOffload

/-- One JavaScript day in milliseconds (`24 * 60 * 60 * 1000`). -/
def dayMs : Int := 86400000

/-- JavaScript `Date` range limit: a time value is valid iff its magnitude is
at most 8,640,000,000,000,000 ms (ECMA-262 time-value clipping; `new Date(t)`
outside this range is an Invalid Date). -/
def maxDateMs : Int := 8640000000000000

/-- Whether an epoch-millisecond value is a valid JavaScript time value. -/
def isValidInstant (t : Int) : Bool :=
  decide (-maxDateMs ≤ t) && decide (t ≤ maxDateMs)

/-- `new Date(t)` for an integer `t`: valid unless the time value is clipped. -/
def mkDateMs (t : Int) : Option Int :=
  if isValidInstant t then some t else none

/-- UTC calendar-day index of an instant (floor division by a day).
`Date.UTC(d.getUTCFullYear(), d.getUTCMonth(), d.getUTCDate())` is the
midnight of this day, so two instants have equal UTC year/month/day fields
iff they have the same `utcDay`. -/
def utcDay (t : Int) : Int := t.fdiv dayMs

/-- Midnight UTC of the UTC calendar day of `t`: the embedding of
`new Date(Date.UTC(d.getUTCFullYear(), d.getUTCMonth(), d.getUTCDate()))`. -/
def utcStartOfDay (t : Int) : Int := dayMs * utcDay t

/-- Local calendar-day index for a zone offset `tz` (milliseconds east of
UTC): the embedding of `Date.toDateString()` calendar-day identity, which the
source uses via `startDate.toDateString() === today.toDateString()`. -/
def localDay (tz t : Int) : Int := (t + tz).fdiv dayMs

/-- `getUTCHours` of an instant. -/
def utcHour (t : Int) : Int := (t.emod dayMs).fdiv 3600000

/-- `getUTCMinutes` of an instant. -/
def utcMinute (t : Int) : Int := ((t.emod dayMs).emod 3600000).fdiv 60000

/-- `getUTCSeconds` of an instant. -/
def utcSecond (t : Int) : Int := (((t.emod dayMs).emod 3600000).emod 60000).fdiv 1000

/-- `getUTCMilliseconds` of an instant. -/
def utcMillis (t : Int) : Int := t.emod 1000

/-- A `Date`-typed value that may be present-but-invalid, for positions where
the source distinguishes `undefined` from an Invalid Date
(`targetDate && !isValidDate(targetDate)`). -/
inductive DateVal where
  | invalid : DateVal
  | valid (ms : Int) : DateVal
deriving DecidableEq

/-- Extract the instant of a valid optional date; `parseDateParam` and the
pipeline guards downgrade an invalid date to "no filter". -/
def DateVal.toOption : Option DateVal → Option Int
  | some (.valid t) => some t
  | _ => none

/-- The `work_items` row, restricted to the columns the core logic reads:
identity, the dedup key `(userId, sourceType, sourceId)`, the temporal
columns and the filter/sort columns. -/
structure WorkItem where
  id : Nat
  userId : Nat
  sourceType : String
  sourceId : String
  classification : String
  summary : String := ""
  urgencyScore : Option Int := none
  isCompleted : Bool := false
  sourceDate : Option Int := none
  createdAt : Int
deriving DecidableEq

/-- drizzle `gte(col, b)` on a nullable column: NULL never satisfies. -/
def sqlGte (col : Option Int) (b : Int) : Bool :=
  match col with
  | none => false
  | some v => decide (b ≤ v)

/-- drizzle `lt(col, b)` on a nullable column: NULL never satisfies. -/
def sqlLt (col : Option Int) (b : Int) : Bool :=
  match col with
  | none => false
  | some v => decide (v < b)

/-- drizzle `isNull(col)`. -/
def sqlIsNull (col : Option Int) : Bool := col.isNone

/-- drizzle `isNotNull(col)`. -/
def sqlIsNotNull (col : Option Int) : Bool := col.isSome

/-- `buildDateFilters(startDate?, endDate?, includeNullDates)` from
`server/storage.ts`. `tz` is the server's zone offset (ms east of UTC),
entering only through `toDateString()` in the "today" check; `now` is the
value of `new Date()` when the builder runs. Returns the list of predicates
pushed onto the query's WHERE conditions. -/
def buildDateFilters (tz now : Int) (startDate endDate : Option Int)
    (includeNullDates : Bool) : List (WorkItem → Bool) :=
  match startDate, endDate with
  | some s, some e =>
    if includeNullDates then
      [fun it => sqlIsNull it.sourceDate ||
        (sqlGte it.sourceDate s && sqlLt it.sourceDate e)]
    else
      [fun it => sqlIsNotNull it.sourceDate &&
        sqlGte it.sourceDate s && sqlLt it.sourceDate e]
  | some s, none =>
    -- isTodayFilter: startDate.toDateString() === today.toDateString()
    if localDay tz s == localDay tz now then
      [fun it =>
        (sqlIsNotNull it.sourceDate && sqlGte it.sourceDate s &&
          sqlLt it.sourceDate (s + dayMs)) ||
        (sqlGte (some it.createdAt) s && sqlLt (some it.createdAt) (s + dayMs))]
    -- isRecentFilter: sevenDaysAgo <= start <= today
    else if decide (now - 7 * dayMs ≤ s) && decide (s ≤ now) then
      [fun it =>
        (sqlIsNotNull it.sourceDate && sqlGte it.sourceDate s &&
          sqlLt it.sourceDate (now + dayMs)) ||
        (sqlGte (some it.createdAt) s && sqlLt (some it.createdAt) (now + dayMs))]
    else if includeNullDates then
      [fun it => sqlIsNull it.sourceDate || sqlGte it.sourceDate s]
    else
      [fun it => sqlIsNotNull it.sourceDate && sqlGte it.sourceDate s]
  | none, some e =>
    if includeNullDates then
      [fun it => sqlIsNull it.sourceDate || sqlLt it.sourceDate e]
    else
      [fun it => sqlIsNotNull it.sourceDate && sqlLt it.sourceDate e]
  | none, none => []

/-- Conjunction of a WHERE-condition list over one row. -/
def matchesFilters (fs : List (WorkItem → Bool)) (it : WorkItem) : Bool :=
  fs.all (fun p => p it)

/-- The options object of `DatabaseStorage.getWorkItems`; date fields are
already validated (`isValidDate`), an invalid date having been downgraded to
`none` exactly as the source overwrites it with `undefined`. -/
structure GetOptions where
  limit : Option Nat := none
  offset : Option Nat := none
  classification : Option String := none
  isCompleted : Option Bool := none
  startDate : Option Int := none
  endDate : Option Int := none
deriving DecidableEq

/-- The in-memory `workItemsCache`: association list from key to
`{ data, timestamp }`, newest first (`Map.set` replace semantics). -/
def Cache := List (String × List WorkItem × Int)

/-- `CACHE_TTL = 10000` ms. -/
def CACHE_TTL : Int := 10000

/-- `getCacheKey(userId, options)`; `toISOString()` is rendered as the
decimal epoch value, an injective stand-in for the ISO timestamp string. -/
def getCacheKey (userId : Nat) (o : GetOptions) : String :=
  toString userId ++ "-" ++
  toString (match o.limit with
    | some l => if l = 0 then 50 else l
    | none => 50) ++ "-" ++
  toString (match o.offset with
    | some ofs => ofs
    | none => 0) ++ "-" ++
  (match o.classification with
    | some c => if c = "" then "all" else c
    | none => "all") ++ "-" ++
  (match o.isCompleted with
    | some b => toString b
    | none => "all") ++ "-" ++
  (match o.startDate with
    | some t => toString t
    | none => "all") ++ "-" ++
  (match o.endDate with
    | some t => toString t
    | none => "all")

/-- `isCacheValid(timestamp)`: `Date.now() - timestamp < CACHE_TTL`. -/
def isCacheValid (now ts : Int) : Bool := decide (now - ts < CACHE_TTL)

/-- `workItemsCache.get(key)`. -/
def cacheGet (c : Cache) (k : String) : Option (List WorkItem × Int) :=
  match List.find? (fun e => e.1 == k) c with
  | some e => some e.2
  | none => none

/-- `workItemsCache.set(key, { data, timestamp })`. -/
def cacheSet (c : Cache) (k : String) (data : List WorkItem) (ts : Int) : Cache :=
  (k, data, ts) :: List.filter (fun e => !(e.1 == k)) c

/-- `clearWorkItemsCache(userId)`: delete every key with the user prefix. -/
def clearWorkItemsCache (c : Cache) (userId : Nat) : Cache :=
  List.filter (fun e => !(String.startsWith e.1 (toString userId ++ "-"))) c

/-- `validateWorkItem(item)`: a present (nonzero) numeric id and user id. -/
def validateWorkItem (it : WorkItem) : Bool :=
  (it.id != 0) && (it.userId != 0)

/-- `ORDER BY urgencyScore DESC, createdAt DESC` (PostgreSQL default puts
NULLs first in descending order): `itemOrder a b` means `a` sorts no later
than `b`. -/
def itemOrder (a b : WorkItem) : Bool :=
  match a.urgencyScore, b.urgencyScore with
  | none, none => decide (b.createdAt ≤ a.createdAt)
  | none, some _ => true
  | some _, none => false
  | some x, some y =>
    if x == y then decide (b.createdAt ≤ a.createdAt) else decide (y ≤ x)

/-- `startDate >= endDate` guard of `getWorkItems` (both bounds present). -/
def invalidRange (o : GetOptions) : Bool :=
  match o.startDate, o.endDate with
  | some s, some e => decide (e ≤ s)
  | _, _ => false

/-- The SELECT issued by `getWorkItems` once validation and the cache miss
are behind: WHERE userId = · [AND classification = ·] [AND isCompleted = ·]
AND date filters (with `includeNullDates = false`; when no date filter
applies, `isNotNull(sourceDate)` is pushed instead), ORDER BY urgency/created
descending, then `LIMIT`/`OFFSET`. -/
def dbQuery (db : List WorkItem) (tz now : Int) (userId : Nat)
    (o : GetOptions) : List WorkItem :=
  let classConds : List (WorkItem → Bool) :=
    match o.classification with
    | some c => if c = "" then [] else [fun it => it.classification == c]
    | none => []
  let completedConds : List (WorkItem → Bool) :=
    match o.isCompleted with
    | some b => [fun it => it.isCompleted == b]
    | none => []
  let dateConds : List (WorkItem → Bool) :=
    let dateFilters := buildDateFilters tz now o.startDate o.endDate false
    if dateFilters.length > 0 then dateFilters
    else [fun it => sqlIsNotNull it.sourceDate]
  let whereConds : List (WorkItem → Bool) :=
    (fun it => it.userId == userId) :: (classConds ++ completedConds ++ dateConds)
  let filtered : List WorkItem := List.filter (matchesFilters whereConds) db
  let sorted : List WorkItem := List.mergeSort filtered itemOrder
  let afterOffset : List WorkItem :=
    match o.offset with
    | some ofs => if ofs > 0 then sorted.drop ofs else sorted
    | none => sorted
  match o.limit with
  | some l => if l > 0 then afterOffset.take l else afterOffset
  | none => afterOffset

/-- Result of one `getWorkItems` call: the returned rows, the cache state
afterwards, and whether storage was actually queried (false on a cache hit
and on the validation early-returns). -/
structure QueryResult where
  items : List WorkItem
  cache : Cache
  hitStorage : Bool

/-- `DatabaseStorage.getWorkItems(userId, options)` over DB contents `db`
and cache state `cache`, at wall-clock `now` and zone offset `tz`. -/
def getWorkItems (db : List WorkItem) (cache : Cache) (tz now : Int)
    (userId : Nat) (o : GetOptions) : QueryResult :=
  if userId == 0 then ⟨[], cache, false⟩
  else if invalidRange o then ⟨[], cache, false⟩
  else
    let key := getCacheKey userId o
    match cacheGet cache key with
    | some (data, ts) =>
      if isCacheValid now ts then ⟨data, cache, false⟩
      else
        let validItems := List.filter validateWorkItem (dbQuery db tz now userId o)
        ⟨validItems, cacheSet cache key validItems now, true⟩
    | none =>
      let validItems := List.filter validateWorkItem (dbQuery db tz now userId o)
      ⟨validItems, cacheSet cache key validItems now, true⟩

/-! ## JavaScript parsing primitives

Models of the runtime builtins the pipeline leans on.  They are not
repository code; they embed the platform semantics the source assumes. -/

/-- Digit-prefix accumulator for `jsParseInt`. -/
def digitsToNat (ds : List Char) : Nat :=
  ds.foldl (fun acc c => acc * 10 + (c.toNat - 48)) 0

/-- Parse sign-free digit prefix; `none` when no leading digit (NaN). -/
def jsParseIntCore (cs : List Char) (neg : Bool) : Option Int :=
  let ds := cs.takeWhile (fun c => c.isDigit)
  if ds.isEmpty then none
  else some (if neg then -(digitsToNat ds : Int) else (digitsToNat ds : Int))

/-- ASCII whitespace for `parseInt` skipping and `trim`. -/
def isJsSpace (c : Char) : Bool :=
  c = ' ' || c = '\t' || c = '\n' || c = '\r'

/-- Model of the JavaScript `parseInt(s)` builtin at radix 10: skip leading
whitespace, optional sign, then the longest digit prefix; `none` for NaN. -/
def jsParseInt (s : String) : Option Int :=
  match s.toList.dropWhile isJsSpace with
  | '-' :: rest => jsParseIntCore rest true
  | '+' :: rest => jsParseIntCore rest false
  | rest => jsParseIntCore rest false

/-- Days from the civil epoch 1970-01-01 for a proleptic Gregorian date
(Howard Hinnant's `days_from_civil`), used to give the ISO date parser its
numeric value. -/
def daysFromCivil (y m d : Int) : Int :=
  let y' := if m ≤ 2 then y - 1 else y
  let era := y'.fdiv 400
  let yoe := y' - era * 400
  let mp := if 2 < m then m - 3 else m + 9
  let doy := (153 * mp + 2).fdiv 5 + d - 1
  let doe := yoe * 365 + yoe.fdiv 4 - yoe.fdiv 100 + doy
  era * 146097 + doe - 719468

/-- Fixed-width decimal field of an ISO string. -/
def parseDigits (cs : List Char) (n : Nat) : Option (Nat × List Char) :=
  let ds := cs.take n
  if ds.length = n && ds.all (fun c => c.isDigit) then
    some (digitsToNat ds, cs.drop n)
  else none

/-- Model of the JavaScript `new Date(string)` builtin restricted to the
ECMA-262 date-time string format it is guaranteed to accept, in the shapes
this system produces (`YYYY-MM-DD` and `YYYY-MM-DDTHH:MM:SS(.mmm)Z`); every
other input is treated as an Invalid Date (`none`).  The claims settled here
depend on this builtin only through inputs on which it fails, or through the
epoch-integer path, so the restriction is conservative. -/
def jsDateParse (s : String) : Option Int :=
  match parseDigits s.toList 4 with
  | none => none
  | some (y, rest1) =>
    match rest1 with
    | '-' :: rest2 =>
      match parseDigits rest2 2 with
      | none => none
      | some (mo, rest3) =>
        if mo < 1 || 12 < mo then none
        else
          match rest3 with
          | '-' :: rest4 =>
            match parseDigits rest4 2 with
            | none => none
            | some (da, rest5) =>
              if da < 1 || 31 < da then none
              else
                let base := dayMs * daysFromCivil (y : Int) (mo : Int) (da : Int)
                match rest5 with
                | [] => mkDateMs base
                | 'T' :: rest6 =>
                  match parseDigits rest6 2 with
                  | none => none
                  | some (hh, rest7) =>
                    match rest7 with
                    | ':' :: rest8 =>
                      match parseDigits rest8 2 with
                      | none => none
                      | some (mi, rest9) =>
                        match rest9 with
                        | ':' :: rest10 =>
                          match parseDigits rest10 2 with
                          | none => none
                          | some (ss, rest11) =>
                            if 24 ≤ hh || 60 ≤ mi || 60 ≤ ss then none
                            else
                              let t := base + 3600000 * (hh : Int) +
                                60000 * (mi : Int) + 1000 * (ss : Int)
                              match rest11 with
                              | ['Z'] => mkDateMs t
                              | '.' :: rest12 =>
                                match parseDigits rest12 3 with
                                | none => none
                                | some (ms, rest13) =>
                                  match rest13 with
                                  | ['Z'] => mkDateMs (t + (ms : Int))
                                  | _ => none
                              | _ => none
                        | _ => none
                    | _ => none
                | _ => none
          | _ => none
    | _ => none

/-! ## Gmail ingestion pipeline (`server/routes.ts`) -/

/-- A raw Gmail message as assembled by `fetchGmailEmail`: native id,
headers, decoded body, and the native `internalDate` timestamp string
(`none` models an absent field; `parseInt` applied to `undefined` is NaN). -/
structure GmailEmail where
  id : String
  subject : String := ""
  sender : String := ""
  body : String := ""
  internalDate : Option String := none
deriving DecidableEq

/-- The Gmail `internalDate` parsing chain used both by `validateEmailDate`
and by the per-email processing step: `parseInt` first (epoch milliseconds),
falling back to generic date-string parsing; the resulting `Date` must be
valid. -/
def parseGmailDate (s : String) : Option Int :=
  match jsParseInt s with
  | some t => mkDateMs t
  | none => jsDateParse s

/-- `validateEmailDate(email, targetDate?)`: reject a missing or falsy
`internalDate`, reject an unparsable one, and when a (valid) target date is
given require the email's UTC calendar day to equal the target's. -/
def validateEmailDate (e : GmailEmail) (targetDate : Option Int) : Bool :=
  match e.internalDate with
  | none => false
  | some s =>
    if s == "" then false
    else
      match parseGmailDate s with
      | none => false
      | some t =>
        match targetDate with
        | some td => utcStartOfDay t == utcStartOfDay td
        | none => true

/-- `validateEmailContent(email)`: never rejects; an empty or placeholder
body is substituted with the subject line, or a literal default when the
subject is empty too.  Modelled as the transformation it performs on the
email object (the source mutates `email.body` and returns `true`). -/
def validateEmailContent (e : GmailEmail) : GmailEmail :=
  if e.body == "" || e.body == "Message content unavailable" then
    { e with body := if e.subject == "" then "No content available" else e.subject }
  else e

/-- The structured analysis record returned by the external classifier,
restricted to the fields the persisted row model keeps. -/
structure Analysis where
  classification : String
  summary : String := ""
  urgency_score : Option Int := none
deriving DecidableEq

/-- Classifier oracle: `none` models a thrown `analyzeWorkItem` error. -/
def AiOracle := String → Option Analysis

/-- Storage state threaded through the pipeline: the `work_items` rows and
the next surrogate id the database would assign. -/
structure Store where
  items : List WorkItem
  nextId : Nat
deriving DecidableEq

/-- `getWorkItemBySourceId(userId, sourceType, sourceId)`: point lookup on
the dedup key triple. -/
def getWorkItemBySourceId (items : List WorkItem) (userId : Nat)
    (sourceType sourceId : String) : Option WorkItem :=
  List.find? (fun it =>
    it.userId == userId && it.sourceType == sourceType && it.sourceId == sourceId) items

/-- Per-message outcome, the tag of the result objects collected per batch. -/
inductive Outcome where
  | created : Outcome
  | skipped : Outcome
  | error : Outcome
deriving DecidableEq

/-- The `{created, skipped, errors}` summary. -/
structure Counts where
  created : Nat := 0
  skipped : Nat := 0
  errors : Nat := 0
deriving DecidableEq

/-- Add one outcome to a summary. -/
def Counts.bump (c : Counts) : Outcome → Counts
  | .created => { c with created := c.created + 1 }
  | .skipped => { c with skipped := c.skipped + 1 }
  | .error => { c with errors := c.errors + 1 }

/-- Componentwise sum of summaries. -/
def Counts.plus (c d : Counts) : Counts :=
  ⟨c.created + d.created, c.skipped + d.skipped, c.errors + d.errors⟩

/-- Processing of one already-validated Gmail email inside a batch
(`processGmailEmails`, per-email closure): dedup lookup, classifier call,
`internalDate` re-parse, then `createWorkItem` with the parsed `sourceDate`.
`now` is the ingestion wall-clock used for `createdAt`. -/
def processGmailEmail (now : Int) (ai : AiOracle) (userId : Nat)
    (st : Store) (e : GmailEmail) : Outcome × Store :=
  match getWorkItemBySourceId st.items userId "gmail" e.id with
  | some _ => (.skipped, st)
  | none =>
    match ai e.body with
    | none => (.error, st)
    | some a =>
      match (match e.internalDate with
             | none => none
             | some s => parseGmailDate s) with
      | none => (.error, st)
      | some t =>
        let item : WorkItem :=
          { id := st.nextId, userId := userId, sourceType := "gmail",
            sourceId := e.id, classification := a.classification,
            summary := a.summary, urgencyScore := a.urgency_score,
            isCompleted := false, sourceDate := some t, createdAt := now }
        (.created, ⟨st.items ++ [item], st.nextId + 1⟩)

/-- One fold step over emails, accumulating the outcome counts. -/
def stepEmail (now : Int) (ai : AiOracle) (userId : Nat)
    (acc : Counts × Store) (e : GmailEmail) : Counts × Store :=
  let r := processGmailEmail now ai userId acc.2 e
  (acc.1.bump r.1, r.2)

/-- `BATCH_SIZE = 3` partition of the validated emails: the
`validEmails.slice(i, i + BATCH_SIZE)` loop as structural recursion. -/
def batches3 {α : Type} : List α → List (List α)
  | [] => []
  | [a] => [[a]]
  | [a, b] => [[a, b]]
  | a :: b :: c :: rest => [a, b, c] :: batches3 rest

/-- One batch of `processGmailEmails`: every email of the batch contributes
exactly one result object; outcomes are tallied per batch. -/
def processBatch (now : Int) (ai : AiOracle) (userId : Nat)
    (st : Store) (batch : List GmailEmail) : Counts × Store :=
  batch.foldl (stepEmail now ai userId) (⟨0, 0, 0⟩, st)

/-- `processGmailEmails(userId, accessToken, targetDate?)` over the upstream
fetch result `emails` (the list `fetchGmailEmails` resolved with): input
validation and the early exits, the `validateEmailDate`/`validateEmailContent`
filter, then batch-wise processing with batch totals accumulated. -/
def processGmailEmails (now : Int) (ai : AiOracle) (userId : Nat)
    (accessToken : String) (targetDate : Option DateVal)
    (emails : List GmailEmail) (st : Store) : Counts × Store :=
  if userId == 0 || accessToken == "" then (⟨0, 0, 0⟩, st)
  else if targetDate == some .invalid then (⟨0, 0, 0⟩, st)
  else if emails.isEmpty then (⟨0, 0, 0⟩, st)
  else
    let target := DateVal.toOption targetDate
    let validEmails :=
      (emails.filter (fun e => validateEmailDate e target)).map validateEmailContent
    if validEmails.isEmpty then (⟨0, 0, 0⟩, st)
    else
      (batches3 validEmails).foldl
        (fun acc batch =>
          let r := processBatch now ai userId acc.2 batch
          (acc.1.plus r.1, r.2))
        (⟨0, 0, 0⟩, st)

/-! ## Slack ingestion pipeline (`server/routes.ts`, `processSlackMessages`) -/

/-- A raw Slack message as assembled by `fetchSlackMessages`: the native id
is the channel timestamp string `ts` (seconds with fractional part). -/
structure SlackMessage where
  id : String
  text : String := ""
  channel : String := ""
deriving DecidableEq

/-- The validation filter of `processSlackMessages`: reject falsy id/text;
when a (valid) target date is given, parse the timestamp (seconds, so scaled
by 1000) and require the message's UTC day to equal the target's — without a
target date no timestamp parsing happens at all; finally reject
whitespace-only text. -/
def slackMessageValid (targetDate : Option Int) (m : SlackMessage) : Bool :=
  if m.id == "" || m.text == "" then false
  else
    let dateOk :=
      match targetDate with
      | none => true
      | some td =>
        match jsParseInt m.id with
        | none => false
        | some ts =>
          match mkDateMs (ts * 1000) with
          | none => false
          | some d => utcStartOfDay d == utcStartOfDay td
    -- message.text.trim().length === 0 ⟺ the text is all whitespace
    dateOk && !(m.text.toList.all isJsSpace)

/-- The `sourceDate` computed for a Slack message right before
`createWorkItem`: parse the timestamp as epoch seconds; an unparsable or
invalid timestamp falls back to the current time (`new Date()`). -/
def slackSourceDate (now : Int) (msgId : String) : Int :=
  match jsParseInt msgId with
  | none => now
  | some ts =>
    match mkDateMs (ts * 1000) with
    | none => now
    | some d => d

/-- Processing of one validated Slack message: dedup lookup, classifier
call, timestamp normalization, `createWorkItem` (sequential loop body of
`processSlackMessages`; a classifier or storage failure is caught and
counted as an error). -/
def processSlackMessage (now : Int) (ai : AiOracle) (userId : Nat)
    (st : Store) (m : SlackMessage) : Outcome × Store :=
  match getWorkItemBySourceId st.items userId "slack" m.id with
  | some _ => (.skipped, st)
  | none =>
    match ai m.text with
    | none => (.error, st)
    | some a =>
      let item : WorkItem :=
        { id := st.nextId, userId := userId, sourceType := "slack",
          sourceId := m.id, classification := a.classification,
          summary := a.summary, urgencyScore := a.urgency_score,
          isCompleted := false, sourceDate := some (slackSourceDate now m.id),
          createdAt := now }
      (.created, ⟨st.items ++ [item], st.nextId + 1⟩)

/-- `processSlackMessages(userId, accessToken, targetDate?)` over the
upstream fetch result `messages`: input validation and the early exits, the
validity filter, then the sequential per-message loop.  (The user lookup and
token-expiry parse at the head of the source are external credential-store
concerns that do not touch the counts or rows and are elided.) -/
def processSlackMessages (now : Int) (ai : AiOracle) (userId : Nat)
    (accessToken : String) (targetDate : Option DateVal)
    (messages : List SlackMessage) (st : Store) : Counts × Store :=
  if userId == 0 || accessToken == "" then (⟨0, 0, 0⟩, st)
  else if targetDate == some .invalid then (⟨0, 0, 0⟩, st)
  else if messages.isEmpty then (⟨0, 0, 0⟩, st)
  else
    let target := DateVal.toOption targetDate
    let validMessages := messages.filter (slackMessageValid target)
    if validMessages.isEmpty then (⟨0, 0, 0⟩, st)
    else
      validMessages.foldl
        (fun acc m =>
          let r := processSlackMessage now ai userId acc.2 m
          (acc.1.bump r.1, r.2))
        (⟨0, 0, 0⟩, st)

/-! ## `secureFetch` and the Gmail fetcher (`server/routes.ts`, oauth part) -/

/-- What one `fetch` attempt resolves to: a 2xx response, a non-2xx status,
an abort (timeout) rejection, or another rejection (network failure). -/
inductive FetchReply where
  | ok : FetchReply
  | httpStatus (code : Nat) : FetchReply
  | abortErr : FetchReply
  | netErr : FetchReply
deriving DecidableEq

/-- The errors `secureFetch` can throw. -/
inductive FetchError where
  | authFailed : FetchError
  | timedOut : FetchError
  | apiError (code : Nat) : FetchError
  | network : FetchError
  | exhausted : FetchError
deriving DecidableEq

/-- `MAX_RETRIES = 3`. -/
def MAX_RETRIES : Nat := 3

/-- The retry loop of `secureFetch` over a fetch oracle `f` (attempt number
to reply).  Faithful to the source's control flow: any error thrown inside
the `try` — including the 401 "Authentication failed" error — is caught by
the loop's own `catch`, which rethrows only on the final attempt (an abort
is rethrown immediately as a timeout error); 429 and non-final 5xx use
`continue`.  Returns the result together with the number of `fetch` calls
made; `fuel` counts the remaining loop iterations. -/
def secureFetchLoop (f : Nat → FetchReply) :
    Nat → Nat → Nat → (Except FetchError Unit) × Nat
  | 0, _, calls => (.error .exhausted, calls)
  | fuel + 1, attempt, calls =>
    match f attempt with
    | .ok => (.ok (), calls + 1)
    | .abortErr => (.error .timedOut, calls + 1)
    | .netErr =>
      if attempt == MAX_RETRIES then (.error .network, calls + 1)
      else secureFetchLoop f fuel (attempt + 1) (calls + 1)
    | .httpStatus c =>
      if c == 401 then
        if attempt == MAX_RETRIES then (.error .authFailed, calls + 1)
        else secureFetchLoop f fuel (attempt + 1) (calls + 1)
      else if c == 429 then secureFetchLoop f fuel (attempt + 1) (calls + 1)
      else if 500 ≤ c then
        if attempt < MAX_RETRIES then secureFetchLoop f fuel (attempt + 1) (calls + 1)
        else (.error (.apiError c), calls + 1)
      else
        if attempt == MAX_RETRIES then (.error (.apiError c), calls + 1)
        else secureFetchLoop f fuel (attempt + 1) (calls + 1)

/-- `secureFetch(url, options, service)`: the loop starting at attempt 1. -/
def secureFetch (f : Nat → FetchReply) : (Except FetchError Unit) × Nat :=
  secureFetchLoop f MAX_RETRIES 1 0

/-- `RealOAuthService.fetchGmailEmails(accessToken, expiresAt?, targetDate?)`
error-path skeleton: token and target-date validation, the message-list
request through `secureFetch`, and the enclosing `try/catch` that converts
ANY raised error — the authentication error included — into an empty list.
`messages` stands for the per-message fetch/validation result on the success
path (external response JSON processing). -/
def fetchGmailEmails (f : Nat → FetchReply) (accessToken : String)
    (targetDate : Option DateVal) (messages : List GmailEmail) : List GmailEmail :=
  if accessToken == "" then []
  else if targetDate == some .invalid then []
  else
    match (secureFetch f).1 with
    | .error _ => []
    | .ok _ => messages

/-! ## Client date helpers (`Dashboard.tsx`) and the read route -/

/-- `convertToUTCStartOfDay(date)`:
`new Date(Date.UTC(date.getUTCFullYear(), date.getUTCMonth(), date.getUTCDate()))`. -/
def convertToUTCStartOfDay (t : Int) : Int := utcStartOfDay t

/-- `buildSafeDateParams(date?)`: for a valid date, the `(start, end)` pair
appended as query parameters, with `end = start + 24h`; otherwise no
parameters. -/
def buildSafeDateParams (d : Option Int) : Option (Int × Int) :=
  match d with
  | none => none
  | some t =>
    let s := convertToUTCStartOfDay t
    some (s, s + dayMs)

/-- `GET /api/work-items` handler skeleton: authentication guard, date
parameter parsing (`parseDateParam` downgrades an invalid date string to
`undefined`), the explicit `start >= end` rejection with status 400, then
the storage read.  `Except` carries the HTTP error status. -/
def getWorkItemsHandler (db : List WorkItem) (cache : Cache) (tz now : Int)
    (userId : Nat) (startQ endQ : Option DateVal) (limit offset : Nat)
    (classification : Option String) (isCompleted : Bool) :
    Except Nat (List WorkItem) :=
  if userId == 0 then .error 401
  else
    let startDate := DateVal.toOption startQ
    let endDate := DateVal.toOption endQ
    if (match startDate, endDate with
        | some s, some e => decide (e ≤ s)
        | _, _ => false) then .error 400
    else
      .ok (getWorkItems db cache tz now userId
        ⟨some limit, some offset, classification, some isCompleted,
          startDate, endDate⟩).items

/-! ## Theorems -/

/-- C4: for every valid input date, the computed UTC day bounds are an
exactly-24h window, the start is determined by the input's UTC calendar day
(`dayMs * utcDay t`, i.e. midnight of the UTC — not local — calendar day),
and the start has zero UTC hour, minute, second and millisecond. -/
theorem utcDayBounds_correct (t : Int) :
    buildSafeDateParams (some t) =
      some (utcStartOfDay t, utcStartOfDay t + dayMs) ∧
    (utcStartOfDay t + dayMs) - utcStartOfDay t = dayMs ∧
    utcStartOfDay t = dayMs * utcDay t ∧
    utcDay (utcStartOfDay t) = utcDay t ∧
    utcHour (utcStartOfDay t) = 0 ∧
    utcMinute (utcStartOfDay t) = 0 ∧
    utcSecond (utcStartOfDay t) = 0 ∧
    utcMillis (utcStartOfDay t) = 0 := by
  have hmod : (dayMs * utcDay t).emod dayMs = 0 := Int.mul_emod_right dayMs (utcDay t)
  refine ⟨rfl, by ring, rfl, ?_, ?_, ?_, ?_, ?_⟩
  · exact Int.mul_fdiv_cancel_left (utcDay t) (by decide)
  · show ((dayMs * utcDay t).emod dayMs).fdiv 3600000 = 0
    rw [hmod]; rfl
  · show (((dayMs * utcDay t).emod dayMs).emod 3600000).fdiv 60000 = 0
    rw [hmod]; rfl
  · show ((((dayMs * utcDay t).emod dayMs).emod 3600000).emod 60000).fdiv 1000 = 0
    rw [hmod]; rfl
  · show (dayMs * utcDay t).emod 1000 = 0
    have h : dayMs * utcDay t = 1000 * (86400 * utcDay t) := by
      show (86400000 : Int) * utcDay t = 1000 * (86400 * utcDay t); ring
    rw [h]; exact Int.mul_emod_right 1000 (86400 * utcDay t)

/-- C8: a read with both bounds present and `start >= end` is explicitly
rejected: the route handler answers 400 and the storage read returns no
items, with no reinterpretation of the inverted range. -/
theorem invalidRange_rejected (db : List WorkItem) (cache : Cache)
    (tz now : Int) (uid : Nat) (s e : Int) (limit offset : Nat)
    (cls : Option String) (ic : Bool)
    (huid : uid ≠ 0) (h : e ≤ s) :
    getWorkItemsHandler db cache tz now uid (some (.valid s)) (some (.valid e))
      limit offset cls ic = .error 400 ∧
    ∀ o : GetOptions, o.startDate = some s → o.endDate = some e →
      (getWorkItems db cache tz now uid o).items = [] := by
  constructor
  · unfold getWorkItemsHandler
    have huid' : (uid == 0) = false := by
      simp [Nat.beq_eq_true_eq]; omega
    simp only [huid', if_false, Bool.false_eq_true]
    simp [DateVal.toOption, h]
  · intro o hs he
    unfold getWorkItems
    by_cases h0 : uid == 0
    · simp [h0]
    · have hr : invalidRange o = true := by
        unfold invalidRange
        rw [hs, he]
        simpa using h
      simp [h0, hr]

/-- Closed witness for `invalidRange_rejected`: an inverted range
(`start = 5 ms, end = 3 ms`) against a one-row store. -/
theorem invalidRange_rejected_witness :
    getWorkItemsHandler
      [{ id := 1, userId := 1, sourceType := "gmail", sourceId := "a",
         classification := "fyi", sourceDate := some 4, createdAt := 4 }]
      [] 0 100 1 (some (.valid 5)) (some (.valid 3)) 50 0 none false = .error 400 ∧
    (getWorkItems
      [{ id := 1, userId := 1, sourceType := "gmail", sourceId := "a",
         classification := "fyi", sourceDate := some 4, createdAt := 4 }]
      [] 0 100 1 ⟨some 50, some 0, none, some false, some 5, some 3⟩).items = [] := by
  have h := invalidRange_rejected
    [{ id := 1, userId := 1, sourceType := "gmail", sourceId := "a",
       classification := "fyi", sourceDate := some 4, createdAt := 4 }]
    [] 0 100 1 5 3 50 0 none false (by decide) (by decide)
  exact ⟨h.1, h.2 ⟨some 50, some 0, none, some false, some 5, some 3⟩ rfl rfl⟩

/-- C2: a work item whose `sourceDate` lies before a start bound but whose
`createdAt` falls inside the start bound's day is included by a start-only
filter that triggers the "today" shortcut (`start` on the current calendar
day), and excluded by a start-only filter triggering neither the "today" nor
the "recent" shortcut (general case: `sourceDate` present and
`sourceDate >= start`). -/
theorem todayFallback_inclusion (tz now s1 s2 sd : Int) (it : WorkItem)
    (hsd : it.sourceDate = some sd)
    (hToday : localDay tz s1 = localDay tz now)
    (hca1 : s1 ≤ it.createdAt) (hca2 : it.createdAt < s1 + dayMs)
    (hsd1 : sd < s1)
    (hNotToday : localDay tz s2 ≠ localDay tz now)
    (hNotRecent : ¬ (now - 7 * dayMs ≤ s2 ∧ s2 ≤ now))
    (hsd2 : sd < s2) :
    matchesFilters (buildDateFilters tz now (some s1) none false) it = true ∧
    matchesFilters (buildDateFilters tz now (some s2) none false) it = false := by
  have hb1 : (localDay tz s1 == localDay tz now) = true := beq_iff_eq.mpr hToday
  have hb2 : (localDay tz s2 == localDay tz now) = false :=
    beq_eq_false_iff_ne.mpr hNotToday
  have hb3 : (decide (now - 7 * dayMs ≤ s2) && decide (s2 ≤ now)) = false := by
    by_cases h1 : now - 7 * dayMs ≤ s2
    · have h2 : ¬ s2 ≤ now := fun h2 => hNotRecent ⟨h1, h2⟩
      simp [h1, h2]
    · simp [h1]
  constructor
  · simp only [buildDateFilters, hb1, if_true]
    simp only [matchesFilters, List.all_cons, List.all_nil, Bool.and_true]
    simp only [sqlGte, sqlLt, sqlIsNotNull, hsd, Option.isSome_some,
      Bool.true_and, Bool.or_eq_true, Bool.and_eq_true, decide_eq_true_eq]
    omega
  · simp only [buildDateFilters, hb2, hb3, Bool.false_eq_true, if_false]
    simp only [matchesFilters, List.all_cons, List.all_nil, Bool.and_true]
    simp only [sqlGte, sqlIsNotNull, hsd, Option.isSome_some, Bool.true_and,
      decide_eq_true_eq]
    simp only [decide_eq_false_iff_not]
    omega

/-- Closed witness for `todayFallback_inclusion`: UTC server, `now` on day
100 of the epoch, an item with `sourceDate` on day 98 and `createdAt` on day
100; included by `start = day-100 midnight` (today shortcut), excluded by
`start = day-101 midnight` (general case). -/
theorem todayFallback_inclusion_witness :
    matchesFilters (buildDateFilters 0 8640005000 (some 8640000000) none false)
      ⟨1, 1, "gmail", "a", "fyi", "", none, false, some 8550000000, 8640001000⟩ = true ∧
    matchesFilters (buildDateFilters 0 8640005000 (some 8726400000) none false)
      ⟨1, 1, "gmail", "a", "fyi", "", none, false, some 8550000000, 8640001000⟩ = false := by
  exact todayFallback_inclusion 0 8640005000 8640000000 8726400000 8550000000
    ⟨1, 1, "gmail", "a", "fyi", "", none, false, some 8550000000, 8640001000⟩
    rfl (by decide) (by decide) (by decide) (by decide) (by decide) (by decide)
    (by decide)

/-- Path lemma: on valid input and a cold cache key, `getWorkItems` queries
storage, filters corrupt rows, caches the result and reports the hit. -/
theorem getWorkItems_miss (db : List WorkItem) (cache : Cache) (tz now : Int)
    (uid : Nat) (o : GetOptions) (h0 : uid ≠ 0) (hr : invalidRange o = false)
    (hm : cacheGet cache (getCacheKey uid o) = none) :
    getWorkItems db cache tz now uid o =
      ⟨List.filter validateWorkItem (dbQuery db tz now uid o),
       cacheSet cache (getCacheKey uid o)
         (List.filter validateWorkItem (dbQuery db tz now uid o)) now, true⟩ := by
  unfold getWorkItems
  rw [beq_eq_false_iff_ne.mpr h0, hr]
  simp only [Bool.false_eq_true, if_false, hm]

/-- Path lemma: on valid input and a fresh cache entry, `getWorkItems`
returns the cached data without touching storage. -/
theorem getWorkItems_hit (db : List WorkItem) (cache : Cache) (tz now : Int)
    (uid : Nat) (o : GetOptions) (data : List WorkItem) (ts : Int)
    (h0 : uid ≠ 0) (hr : invalidRange o = false)
    (hm : cacheGet cache (getCacheKey uid o) = some (data, ts))
    (hv : isCacheValid now ts = true) :
    getWorkItems db cache tz now uid o = ⟨data, cache, false⟩ := by
  unfold getWorkItems
  rw [beq_eq_false_iff_ne.mpr h0, hr]
  simp only [Bool.false_eq_true, if_false, hm, hv, if_true]

/-- Path lemma: an expired cache entry is treated as a miss and storage is
re-queried. -/
theorem getWorkItems_expired (db : List WorkItem) (cache : Cache)
    (tz now : Int) (uid : Nat) (o : GetOptions) (data : List WorkItem)
    (ts : Int) (h0 : uid ≠ 0) (hr : invalidRange o = false)
    (hm : cacheGet cache (getCacheKey uid o) = some (data, ts))
    (hv : isCacheValid now ts = false) :
    getWorkItems db cache tz now uid o =
      ⟨List.filter validateWorkItem (dbQuery db tz now uid o),
       cacheSet cache (getCacheKey uid o)
         (List.filter validateWorkItem (dbQuery db tz now uid o)) now, true⟩ := by
  unfold getWorkItems
  rw [beq_eq_false_iff_ne.mpr h0, hr]
  simp only [Bool.false_eq_true, if_false, hm, hv]

/-- The both-bounds date predicate holds iff `sourceDate` is present and
falls in `[s, e)`. -/
theorem bothBoundsPred_iff (s e : Int) (x : WorkItem) :
    (sqlIsNotNull x.sourceDate && sqlGte x.sourceDate s &&
      sqlLt x.sourceDate e) = true ↔
    ∃ d, x.sourceDate = some d ∧ s ≤ d ∧ d < e := by
  cases hx : x.sourceDate with
  | none => simp [sqlIsNotNull, sqlGte, sqlLt, hx]
  | some d0 => simp [sqlIsNotNull, sqlGte, sqlLt, hx, and_assoc]

/-- C1: with both bounds present (`start < end`) and a cold cache, a
`getWorkItems` read returns exactly the caller's (valid) work items whose
`sourceDate` is non-null and satisfies `start <= sourceDate < end`; items
with absent `sourceDate` cannot satisfy the right-hand side, so they are
never returned in this branch. -/
theorem dateRangeFilter_exact (db : List WorkItem) (tz now : Int) (uid : Nat)
    (s e : Int) (x : WorkItem) (huid : uid ≠ 0) (hse : s < e) :
    x ∈ (getWorkItems db [] tz now uid
        ⟨none, none, none, none, some s, some e⟩).items ↔
      x ∈ db ∧ validateWorkItem x = true ∧ x.userId = uid ∧
        ∃ d, x.sourceDate = some d ∧ s ≤ d ∧ d < e := by
  have hr : invalidRange ⟨none, none, none, none, some s, some e⟩ = false := by
    simp only [invalidRange, decide_eq_false_iff_not]
    omega
  rw [getWorkItems_miss db [] tz now uid _ huid hr rfl]
  show x ∈ List.filter validateWorkItem (dbQuery db tz now uid _) ↔ _
  rw [List.mem_filter]
  unfold dbQuery
  rw [(List.mergeSort_perm _ _).mem_iff, List.mem_filter]
  simp only [matchesFilters, buildDateFilters, List.all_cons, List.all_nil,
    Bool.and_true, List.nil_append, List.cons_append, if_false,
    Bool.and_eq_true, beq_iff_eq]
  constructor
  · rintro ⟨⟨hdb, hu, hpred⟩, hval⟩
    exact ⟨hdb, hval, hu, (bothBoundsPred_iff s e x).mp (by
      simpa [Bool.and_eq_true] using hpred)⟩
  · rintro ⟨hdb, hval, hu, hex⟩
    refine ⟨⟨hdb, hu, ?_⟩, hval⟩
    have := (bothBoundsPred_iff s e x).mpr hex
    simpa [Bool.and_eq_true] using this

/-- Closed witness for `dateRangeFilter_exact`, at the spec's concrete
instance: items with `sourceDate` 2025-07-24T10:00Z, 2025-07-25T01:00Z and
NULL, range `[2025-07-25T00:00Z, 2025-07-26T00:00Z)`: exactly the second
item is returned. -/
theorem dateRangeFilter_exact_witness :
    (⟨2, 1, "gmail", "b", "fyi", "", none, false, some 1753405200000,
        1753488000000⟩ : WorkItem) ∈
      (getWorkItems
        [⟨1, 1, "gmail", "a", "urgent", "", none, false, some 1753351200000,
          1753488000000⟩,
         ⟨2, 1, "gmail", "b", "fyi", "", none, false, some 1753405200000,
          1753488000000⟩,
         ⟨3, 1, "slack", "c", "ignore", "", none, false, none, 1753488000000⟩]
        [] 0 1753488000000 1
        ⟨none, none, none, none, some 1753401600000, some 1753488000000⟩).items ∧
    (⟨1, 1, "gmail", "a", "urgent", "", none, false, some 1753351200000,
        1753488000000⟩ : WorkItem) ∉
      (getWorkItems
        [⟨1, 1, "gmail", "a", "urgent", "", none, false, some 1753351200000,
          1753488000000⟩,
         ⟨2, 1, "gmail", "b", "fyi", "", none, false, some 1753405200000,
          1753488000000⟩,
         ⟨3, 1, "slack", "c", "ignore", "", none, false, none, 1753488000000⟩]
        [] 0 1753488000000 1
        ⟨none, none, none, none, some 1753401600000, some 1753488000000⟩).items ∧
    (⟨3, 1, "slack", "c", "ignore", "", none, false, none, 1753488000000⟩ : WorkItem) ∉
      (getWorkItems
        [⟨1, 1, "gmail", "a", "urgent", "", none, false, some 1753351200000,
          1753488000000⟩,
         ⟨2, 1, "gmail", "b", "fyi", "", none, false, some 1753405200000,
          1753488000000⟩,
         ⟨3, 1, "slack", "c", "ignore", "", none, false, none, 1753488000000⟩]
        [] 0 1753488000000 1
        ⟨none, none, none, none, some 1753401600000, some 1753488000000⟩).items := by
  have h := fun x => dateRangeFilter_exact
    [⟨1, 1, "gmail", "a", "urgent", "", none, false, some 1753351200000,
      1753488000000⟩,
     ⟨2, 1, "gmail", "b", "fyi", "", none, false, some 1753405200000,
      1753488000000⟩,
     ⟨3, 1, "slack", "c", "ignore", "", none, false, none, 1753488000000⟩]
    0 1753488000000 1 1753401600000 1753488000000 x
    (by decide) (by decide)
  refine ⟨?_, ?_, ?_⟩
  · exact (h _).mpr ⟨by simp, by decide, rfl,
      1753405200000, rfl, by decide, by decide⟩
  · intro hmem
    obtain ⟨-, -, -, d, hd, h1, -⟩ := (h _).mp hmem
    have hd' : d = 1753351200000 := by
      simpa using hd.symm
    omega
  · intro hmem
    obtain ⟨-, -, -, d, hd, -, -⟩ := (h _).mp hmem
    simp at hd

/-- Freshly cached entries are found again under the same key. -/
theorem cacheGet_cacheSet (cache : Cache) (k : String) (V : List WorkItem)
    (ts : Int) : cacheGet (cacheSet cache k V ts) k = some (V, ts) := by
  unfold cacheGet cacheSet
  simp

/-- C9: a cached result is valid for exactly `CACHE_TTL = 10` seconds from
the time it is stored.  After a storage-backed read at `t1`, an identical
read (same user, pagination, filters and date range, hence the same cache
key) at `t2` with `t2 - t1 < 10000` returns the cached list without
querying storage; once `10000 <= t2 - t1` the entry counts as a miss and
storage is re-queried — lazily, with no background sweep. -/
theorem cacheTTL_correct (db db' : List WorkItem) (cache : Cache)
    (tz t1 t2 : Int) (uid : Nat) (o : GetOptions)
    (huid : uid ≠ 0) (hr : invalidRange o = false)
    (hm : cacheGet cache (getCacheKey uid o) = none) :
    (getWorkItems db cache tz t1 uid o).hitStorage = true ∧
    (t2 - t1 < CACHE_TTL →
      getWorkItems db' (getWorkItems db cache tz t1 uid o).cache tz t2 uid o =
        ⟨(getWorkItems db cache tz t1 uid o).items,
         (getWorkItems db cache tz t1 uid o).cache, false⟩) ∧
    (CACHE_TTL ≤ t2 - t1 →
      (getWorkItems db' (getWorkItems db cache tz t1 uid o).cache
          tz t2 uid o).hitStorage = true) := by
  rw [getWorkItems_miss db cache tz t1 uid o huid hr hm]
  refine ⟨rfl, ?_, ?_⟩
  · intro hlt
    exact getWorkItems_hit db' _ tz t2 uid o _ t1 huid hr
      (cacheGet_cacheSet cache _ _ t1)
      (by unfold isCacheValid; exact decide_eq_true hlt)
  · intro hge
    rw [getWorkItems_expired db' _ tz t2 uid o _ t1 huid hr
      (cacheGet_cacheSet cache _ _ t1)
      (by unfold isCacheValid; exact decide_eq_false (by omega))]

/-- Closed witness for `cacheTTL_correct`: a read at `t = 0` populates the
cache; a second read at `t = 5000` (even against an emptied store) is served
from cache without a storage query, while a read at `t = 10000` re-queries
storage. -/
theorem cacheTTL_correct_witness :
    (5000 : Int) - 0 < CACHE_TTL ∧
    getWorkItems []
      (getWorkItems
        [⟨1, 1, "gmail", "a", "fyi", "", none, false, some 7, 7⟩]
        [] 0 0 1 ⟨none, none, none, none, none, none⟩).cache
      0 5000 1 ⟨none, none, none, none, none, none⟩ =
      ⟨(getWorkItems
          [⟨1, 1, "gmail", "a", "fyi", "", none, false, some 7, 7⟩]
          [] 0 0 1 ⟨none, none, none, none, none, none⟩).items,
       (getWorkItems
          [⟨1, 1, "gmail", "a", "fyi", "", none, false, some 7, 7⟩]
          [] 0 0 1 ⟨none, none, none, none, none, none⟩).cache, false⟩ ∧
    CACHE_TTL ≤ (10000 : Int) - 0 ∧
    (getWorkItems []
      (getWorkItems
        [⟨1, 1, "gmail", "a", "fyi", "", none, false, some 7, 7⟩]
        [] 0 0 1 ⟨none, none, none, none, none, none⟩).cache
      0 10000 1 ⟨none, none, none, none, none, none⟩).hitStorage = true := by
  have h1 := cacheTTL_correct
    [⟨1, 1, "gmail", "a", "fyi", "", none, false, some 7, 7⟩] [] [] 0 0 5000 1
    ⟨none, none, none, none, none, none⟩ (by decide) rfl rfl
  have h2 := cacheTTL_correct
    [⟨1, 1, "gmail", "a", "fyi", "", none, false, some 7, 7⟩] [] [] 0 0 10000 1
    ⟨none, none, none, none, none, none⟩ (by decide) rfl rfl
  exact ⟨by decide, h1.2.1 (by decide), by decide, h2.2.2 (by decide)⟩

/-- C7 counterexample: with the upstream answering 401 on every attempt,
`secureFetch` performs 3 fetch calls — not 1, so the 401 is retried rather
than raised immediately — and `fetchGmailEmails` swallows the resulting
authentication error, returning an empty message list instead of surfacing
it (its non-empty success-path payload is discarded). -/
theorem auth401_retried_counterexample :
    (secureFetch (fun _ => .httpStatus 401)).2 = 3 ∧
    (secureFetch (fun _ => .httpStatus 401)).2 ≠ 1 ∧
    (secureFetch (fun _ => .httpStatus 401)).1 = .error .authFailed ∧
    fetchGmailEmails (fun _ => .httpStatus 401) "tok" none
      [⟨"g1", "s", "f", "b", some "1753351200000"⟩] = [] :=
  ⟨rfl, by decide, rfl, rfl⟩

/-- C7 amended: a 401 does make `secureFetch` raise an authentication error
(never a response), but the error thrown inside the retry loop's `try` is
caught by its own `catch` and rethrown only on the final attempt, so the
source is fetched `MAX_RETRIES = 3` times; `fetchGmailEmails` then converts
the raised error into an empty message list rather than surfacing it. -/
theorem auth401_retried (f : Nat → FetchReply)
    (h : ∀ i, f i = .httpStatus 401) (tok : String) (td : Option DateVal)
    (msgs : List GmailEmail) :
    secureFetch f = (.error .authFailed, MAX_RETRIES) ∧
    fetchGmailEmails f tok td msgs = [] := by
  have hf : f = fun _ => FetchReply.httpStatus 401 := funext h
  constructor
  · rw [hf]; rfl
  · rw [hf]
    unfold fetchGmailEmails
    by_cases h1 : (tok == "") = true
    · rw [if_pos h1]
    · rw [if_neg h1]
      by_cases h2 : (td == some DateVal.invalid) = true
      · rw [if_pos h2]
      · rw [if_neg h2]
        rfl

/-- Closed witness for `auth401_retried`. -/
theorem auth401_retried_witness :
    secureFetch (fun _ => .httpStatus 401) = (.error .authFailed, MAX_RETRIES) ∧
    fetchGmailEmails (fun _ => .httpStatus 401) "tok" (some (.valid 0))
      [⟨"g1", "s", "f", "b", some "1753351200000"⟩] = [] :=
  auth401_retried (fun _ => .httpStatus 401) (fun _ => rfl) "tok"
    (some (.valid 0)) [⟨"g1", "s", "f", "b", some "1753351200000"⟩]

/-- C5 counterexample: a Gmail message whose `internalDate` ("garbage")
parses neither as an epoch integer nor as a date string is dropped by
`validateEmailDate` and by the whole pipeline even when NO target day is
requested (the run creates, skips and errors nothing and leaves the store
untouched), contradicting "retained and processed when no day filter is
requested". -/
theorem unparsableTimestamp_counterexample :
    validateEmailDate ⟨"g3", "C", "", "x", some "garbage"⟩ none = false ∧
    processGmailEmails 0 (fun _ => some ⟨"fyi", "s", none⟩) 1 "tok" none
      [⟨"g3", "C", "", "x", some "garbage"⟩] ⟨[], 1⟩ = (⟨0, 0, 0⟩, ⟨[], 1⟩) :=
  ⟨by decide, by decide⟩

/-- C5 amended: in the Gmail pipeline a message without a parseable native
timestamp is dropped whether or not a target day is specified
(`validateEmailDate` rejects it before the day comparison); only the Slack
pipeline retains such messages when no day filter is requested — its per-day
timestamp parse runs only when a target date is present. -/
theorem unparsableTimestamp_dropped (e : GmailEmail)
    (h : ∀ s, e.internalDate = some s → parseGmailDate s = none) :
    (∀ targetDate, validateEmailDate e targetDate = false) ∧
    (∀ m : SlackMessage, jsParseInt m.id = none → m.id ≠ "" → m.text ≠ "" →
      (m.text.toList.all isJsSpace) = false →
      slackMessageValid none m = true) := by
  constructor
  · intro td
    unfold validateEmailDate
    cases he : e.internalDate with
    | none => rfl
    | some s => simp [he, h s he]
  · intro m hparse hid htext hsp
    simp [slackMessageValid, beq_eq_false_iff_ne.mpr hid,
      beq_eq_false_iff_ne.mpr htext]
    simpa [List.all_eq_false] using hsp

/-- Closed witness for `unparsableTimestamp_dropped`: the "garbage" email is
dropped with and without a target day; the "garbage"-timestamped Slack
message passes validation when no day filter is requested. -/
theorem unparsableTimestamp_dropped_witness :
    validateEmailDate ⟨"g3", "C", "", "x", some "garbage"⟩ (some 1753401600000) = false ∧
    validateEmailDate ⟨"g3", "C", "", "x", some "garbage"⟩ none = false ∧
    slackMessageValid none ⟨"garbage", "hello", "c"⟩ = true := by
  have h := unparsableTimestamp_dropped ⟨"g3", "C", "", "x", some "garbage"⟩
    (by
      intro s hs
      injection hs with h'
      subst h'
      decide)
  exact ⟨h.1 (some 1753401600000), h.1 none,
    h.2 ⟨"garbage", "hello", "c"⟩ (by decide) (by decide) (by decide) (by decide)⟩

/-! ### Batch-fold machinery -/

theorem Counts.plus_zero (c : Counts) : c.plus ⟨0, 0, 0⟩ = c := by
  cases c; simp [Counts.plus]

theorem Counts.zero_plus (c : Counts) : Counts.plus ⟨0, 0, 0⟩ c = c := by
  cases c; simp [Counts.plus]

theorem Counts.plus_assoc (a b c : Counts) :
    (a.plus b).plus c = a.plus (b.plus c) := by
  cases a; cases b; cases c; simp [Counts.plus, Nat.add_assoc]

theorem Counts.bump_eq_plus (c : Counts) (o : Outcome) :
    c.bump o = c.plus (Counts.bump ⟨0, 0, 0⟩ o) := by
  cases c; cases o <;> simp [Counts.plus, Counts.bump]

/-- Outcome counts accumulate independently of the starting tally. -/
theorem foldl_stepEmail_shift (now : Int) (ai : AiOracle) (uid : Nat)
    (l : List GmailEmail) : ∀ (c : Counts) (st : Store),
    l.foldl (stepEmail now ai uid) (c, st) =
      (c.plus (l.foldl (stepEmail now ai uid) (⟨0, 0, 0⟩, st)).1,
       (l.foldl (stepEmail now ai uid) (⟨0, 0, 0⟩, st)).2) := by
  induction l with
  | nil => intro c st; simp [Counts.plus_zero]
  | cons e l ih =>
    intro c st
    simp only [List.foldl_cons]
    rw [show stepEmail now ai uid (c, st) e =
        (c.bump (processGmailEmail now ai uid st e).1,
         (processGmailEmail now ai uid st e).2) from rfl]
    rw [show stepEmail now ai uid (⟨0, 0, 0⟩, st) e =
        (Counts.bump ⟨0, 0, 0⟩ (processGmailEmail now ai uid st e).1,
         (processGmailEmail now ai uid st e).2) from rfl]
    rw [ih (c.bump (processGmailEmail now ai uid st e).1)
        ((processGmailEmail now ai uid st e).2),
      ih (Counts.bump ⟨0, 0, 0⟩ (processGmailEmail now ai uid st e).1)
        ((processGmailEmail now ai uid st e).2)]
    rw [Counts.bump_eq_plus c, Counts.plus_assoc]

/-- Folding batch totals over the batches is folding over the flat list. -/
theorem processBatches_eq_flat (now : Int) (ai : AiOracle) (uid : Nat)
    (bs : List (List GmailEmail)) : ∀ (c : Counts) (st : Store),
    bs.foldl (fun acc batch =>
        let r := processBatch now ai uid acc.2 batch
        (acc.1.plus r.1, r.2)) (c, st) =
      bs.flatten.foldl (stepEmail now ai uid) (c, st) := by
  induction bs with
  | nil => intro c st; rfl
  | cons b bs ih =>
    intro c st
    simp only [List.foldl_cons, List.flatten_cons]
    rw [List.foldl_append, foldl_stepEmail_shift now ai uid b c st, ih]
    rfl

/-- The size-3 batching partitions the list. -/
theorem batches3_flatten {α : Type} (l : List α) : (batches3 l).flatten = l := by
  induction l using batches3.induct with
  | case1 => rfl
  | case2 a => rfl
  | case3 a b => rfl
  | case4 a b c rest ih => simp [batches3, List.flatten_cons, ih]

/-- Once the early exits are passed, `processGmailEmails` is the flat fold
of per-email processing over the validated emails. -/
theorem processGmailEmails_eq_flat (now : Int) (ai : AiOracle) (uid : Nat)
    (tok : String) (td : Option DateVal) (emails : List GmailEmail)
    (st : Store) (huid : uid ≠ 0) (htok : tok ≠ "")
    (htd : td ≠ some .invalid) (hne : emails ≠ []) :
    processGmailEmails now ai uid tok td emails st =
      ((emails.filter (fun e => validateEmailDate e (DateVal.toOption td))).map
        validateEmailContent).foldl (stepEmail now ai uid) (⟨0, 0, 0⟩, st) := by
  unfold processGmailEmails
  have h0 : (uid == 0 || tok == "") = false := by
    simp [beq_eq_false_iff_ne.mpr huid, beq_eq_false_iff_ne.mpr htok]
  have h1 : (td == some DateVal.invalid) = false := beq_eq_false_iff_ne.mpr htd
  have h2 : emails.isEmpty = false := by
    cases emails with
    | nil => exact absurd rfl hne
    | cons a l => rfl
  rw [h0, h1, h2]
  simp only [Bool.false_eq_true, if_false]
  by_cases hv : ((emails.filter
      (fun e => validateEmailDate e (DateVal.toOption td))).map
        validateEmailContent).isEmpty = true
  · rw [if_pos hv]
    rw [List.isEmpty_iff.mp hv]
    rfl
  · rw [if_neg hv]
    rw [processBatches_eq_flat, batches3_flatten]

/-- Every email of a fold contributes exactly one outcome to the tally. -/
theorem foldl_stepEmail_total (now : Int) (ai : AiOracle) (uid : Nat)
    (l : List GmailEmail) : ∀ (c : Counts) (st : Store),
    (l.foldl (stepEmail now ai uid) (c, st)).1.created +
      (l.foldl (stepEmail now ai uid) (c, st)).1.skipped +
      (l.foldl (stepEmail now ai uid) (c, st)).1.errors =
    c.created + c.skipped + c.errors + l.length := by
  induction l with
  | nil => intro c st; simp
  | cons e l ih =>
    intro c st
    simp only [List.foldl_cons]
    rw [show stepEmail now ai uid (c, st) e =
        (c.bump (processGmailEmail now ai uid st e).1,
         (processGmailEmail now ai uid st e).2) from rfl]
    rw [ih]
    cases c with
    | mk cc cs ce =>
      cases (processGmailEmail now ai uid st e).1 <;>
        simp [Counts.bump, List.length_cons] <;> omega

/-- C10: every run that reaches batch processing gives each validated
message exactly one of the three outcomes, so
`created + skipped + errors` equals the number of messages that passed
validation; every early-exit path (missing user or credential, invalid
target day, empty fetch result, no valid messages) returns all-zero
counts. -/
theorem outcomeCounts_partition (now : Int) (ai : AiOracle) (uid : Nat)
    (tok : String) (td : Option DateVal) (emails : List GmailEmail)
    (st : Store) :
    ((uid ≠ 0 ∧ tok ≠ "" ∧ td ≠ some .invalid ∧ emails ≠ []) →
      (processGmailEmails now ai uid tok td emails st).1.created +
        (processGmailEmails now ai uid tok td emails st).1.skipped +
        (processGmailEmails now ai uid tok td emails st).1.errors =
      (emails.filter
        (fun e => validateEmailDate e (DateVal.toOption td))).length) ∧
    ((uid = 0 ∨ tok = "" ∨ td = some .invalid ∨ emails = [] ∨
        emails.filter (fun e => validateEmailDate e (DateVal.toOption td)) = []) →
      (processGmailEmails now ai uid tok td emails st).1 = ⟨0, 0, 0⟩) := by
  constructor
  · rintro ⟨huid, htok, htd, hne⟩
    rw [processGmailEmails_eq_flat now ai uid tok td emails st huid htok htd hne]
    rw [foldl_stepEmail_total]
    simp [List.length_map]
  · intro h
    unfold processGmailEmails
    by_cases h0 : (uid == 0 || tok == "") = true
    · rw [if_pos h0]
    · rw [if_neg h0]
      by_cases h1 : (td == some DateVal.invalid) = true
      · rw [if_pos h1]
      · rw [if_neg h1]
        by_cases h2 : emails.isEmpty = true
        · rw [if_pos h2]
        · rw [if_neg h2]
          have hfil : emails.filter
              (fun e => validateEmailDate e (DateVal.toOption td)) = [] := by
            rcases h with h | h | h | h | h
            · exact absurd (by simp [h]) h0
            · exact absurd (by simp [h]) h0
            · exact absurd (by simp [h]) h1
            · exact absurd (by simp [h]) h2
            · exact h
          simp only [hfil, List.map_nil, List.isEmpty_nil, if_true]

/-- Closed witness for `outcomeCounts_partition`: a run over one valid and
one invalid email accounts for exactly the one validated message; a run
with user id 0 early-exits with all-zero counts. -/
theorem outcomeCounts_partition_witness :
    (processGmailEmails 0 (fun _ => some ⟨"fyi", "s", none⟩) 1 "tok" none
        [⟨"g1", "A", "", "hello", some "1753351200000"⟩,
         ⟨"g3", "C", "", "x", some "garbage"⟩] ⟨[], 1⟩).1.created +
      (processGmailEmails 0 (fun _ => some ⟨"fyi", "s", none⟩) 1 "tok" none
        [⟨"g1", "A", "", "hello", some "1753351200000"⟩,
         ⟨"g3", "C", "", "x", some "garbage"⟩] ⟨[], 1⟩).1.skipped +
      (processGmailEmails 0 (fun _ => some ⟨"fyi", "s", none⟩) 1 "tok" none
        [⟨"g1", "A", "", "hello", some "1753351200000"⟩,
         ⟨"g3", "C", "", "x", some "garbage"⟩] ⟨[], 1⟩).1.errors =
      ([⟨"g1", "A", "", "hello", some "1753351200000"⟩,
        ⟨"g3", "C", "", "x", some "garbage"⟩].filter
          (fun e => validateEmailDate e (DateVal.toOption none))).length ∧
    (processGmailEmails 0 (fun _ => some ⟨"fyi", "s", none⟩) 0 "tok" none
        [⟨"g1", "A", "", "hello", some "1753351200000"⟩] ⟨[], 1⟩).1 =
      ⟨0, 0, 0⟩ := by
  refine ⟨(outcomeCounts_partition 0 (fun _ => some ⟨"fyi", "s", none⟩) 1 "tok"
    none _ ⟨[], 1⟩).1 ⟨by decide, by decide, by decide, by decide⟩, ?_⟩
  exact (outcomeCounts_partition 0 (fun _ => some ⟨"fyi", "s", none⟩) 0 "tok"
    none _ ⟨[], 1⟩).2 (Or.inl rfl)

/-! ### Dedup idempotence -/

/-- The point lookup misses iff no stored row carries the dedup key. -/
theorem getWorkItemBySourceId_eq_none_iff (items : List WorkItem) (uid : Nat)
    (ty sid : String) :
    getWorkItemBySourceId items uid ty sid = none ↔
      ∀ it ∈ items,
        ¬(it.userId = uid ∧ it.sourceType = ty ∧ it.sourceId = sid) := by
  simp only [getWorkItemBySourceId, List.find?_eq_none, Bool.and_eq_true,
    beq_iff_eq, and_assoc]

/-- The point lookup hits iff some stored row carries the dedup key. -/
theorem getWorkItemBySourceId_isSome_iff (items : List WorkItem) (uid : Nat)
    (ty sid : String) :
    (getWorkItemBySourceId items uid ty sid).isSome = true ↔
      ∃ it ∈ items,
        it.userId = uid ∧ it.sourceType = ty ∧ it.sourceId = sid := by
  simp only [getWorkItemBySourceId, List.find?_isSome, Bool.and_eq_true,
    beq_iff_eq, and_assoc]

/-- A date-validated email has a parseable `internalDate`. -/
theorem validateEmailDate_parse (e : GmailEmail) (target : Option Int)
    (h : validateEmailDate e target = true) :
    ∃ s t, e.internalDate = some s ∧ parseGmailDate s = some t := by
  unfold validateEmailDate at h
  cases hint : e.internalDate with
  | none => rw [hint] at h; exact absurd h (by simp)
  | some s =>
    rw [hint] at h
    simp only [] at h
    by_cases hs : (s == "") = true
    · rw [if_pos hs] at h; exact absurd h (by simp)
    · rw [if_neg hs] at h
      cases hp : parseGmailDate s with
      | none => rw [hp] at h; exact absurd h (by simp)
      | some t => exact ⟨s, t, rfl, hp⟩

/-- Content substitution does not touch the native id. -/
theorem validateEmailContent_id (e : GmailEmail) :
    (validateEmailContent e).id = e.id := by
  unfold validateEmailContent; split <;> rfl

/-- Content substitution does not touch the native timestamp. -/
theorem validateEmailContent_internalDate (e : GmailEmail) :
    (validateEmailContent e).internalDate = e.internalDate := by
  unfold validateEmailContent; split <;> rfl

/-- First run: over a store holding none of the dedup keys, with distinct
native ids, parseable timestamps and a succeeding classifier, the fold
creates one row per email, appending rows that carry exactly the incoming
dedup keys. -/
theorem run1_creates (now : Int) (ai : AiOracle) (uid : Nat)
    (l : List GmailEmail) : ∀ (c : Counts) (st : Store),
    (∀ e ∈ l, getWorkItemBySourceId st.items uid "gmail" e.id = none) →
    (∀ e ∈ l, (ai e.body).isSome = true) →
    (∀ e ∈ l, ∃ s t, e.internalDate = some s ∧ parseGmailDate s = some t) →
    (l.map (fun e => e.id)).Nodup →
    ∃ news : List WorkItem,
      l.foldl (stepEmail now ai uid) (c, st) =
        (c.plus ⟨l.length, 0, 0⟩, ⟨st.items ++ news, st.nextId + l.length⟩) ∧
      news.map (fun it => it.sourceId) = l.map (fun e => e.id) ∧
      (∀ it ∈ news, it.userId = uid ∧ it.sourceType = "gmail") := by
  induction l with
  | nil =>
    intro c st _ _ _ _
    refine ⟨[], ?_, rfl, by simp⟩
    simp [Counts.plus_zero]
  | cons e l ih =>
    intro c st hfresh hai hparse hnodup
    obtain ⟨a, hA⟩ := Option.isSome_iff_exists.mp (hai e (List.mem_cons_self e l))
    obtain ⟨s, t0, hint, hp⟩ := hparse e (List.mem_cons_self e l)
    have hdup := hfresh e (List.mem_cons_self e l)
    have hstep : processGmailEmail now ai uid st e =
        (.created, ⟨st.items ++
          [⟨st.nextId, uid, "gmail", e.id, a.classification, a.summary,
            a.urgency_score, false, some t0, now⟩], st.nextId + 1⟩) := by
      simp only [processGmailEmail, hdup, hA, hint, hp]
    rw [List.map_cons] at hnodup
    have hnd := List.nodup_cons.mp hnodup
    have hid_ne : ∀ e' ∈ l, e'.id ≠ e.id := by
      intro e' he' heq
      exact hnd.1 (heq ▸ List.mem_map_of_mem _ he')
    have hfresh' : ∀ e' ∈ l,
        getWorkItemBySourceId (st.items ++
          [⟨st.nextId, uid, "gmail", e.id, a.classification, a.summary,
            a.urgency_score, false, some t0, now⟩]) uid "gmail" e'.id = none := by
      intro e' he'
      rw [getWorkItemBySourceId_eq_none_iff]
      intro it hit
      rcases List.mem_append.mp hit with hmem | hmem
      · exact (getWorkItemBySourceId_eq_none_iff st.items uid "gmail" e'.id).mp
          (hfresh e' (List.mem_cons_of_mem _ he')) it hmem
      · have heq : it = ⟨st.nextId, uid, "gmail", e.id, a.classification,
            a.summary, a.urgency_score, false, some t0, now⟩ :=
          List.mem_singleton.mp hmem
        subst heq
        rintro ⟨-, -, hsid⟩
        exact hid_ne e' he' (by rw [← hsid])
    obtain ⟨news', heq, hmap, hprops⟩ :=
      ih (c.bump .created)
        ⟨st.items ++
          [⟨st.nextId, uid, "gmail", e.id, a.classification, a.summary,
            a.urgency_score, false, some t0, now⟩], st.nextId + 1⟩
        hfresh'
        (fun e' he' => hai e' (List.mem_cons_of_mem _ he'))
        (fun e' he' => hparse e' (List.mem_cons_of_mem _ he'))
        hnd.2
    refine ⟨⟨st.nextId, uid, "gmail", e.id, a.classification, a.summary,
      a.urgency_score, false, some t0, now⟩ :: news', ?_, ?_, ?_⟩
    · simp only [List.foldl_cons]
      rw [show stepEmail now ai uid (c, st) e =
          (c.bump .created, ⟨st.items ++
            [⟨st.nextId, uid, "gmail", e.id, a.classification, a.summary,
              a.urgency_score, false, some t0, now⟩], st.nextId + 1⟩) from by
        simp [stepEmail, hstep]]
      rw [heq]
      simp only [Prod.mk.injEq, List.length_cons, Store.mk.injEq]
      refine ⟨?_, ?_, by omega⟩
      · cases c with
        | mk cc cs ce => simp [Counts.bump, Counts.plus]; omega
      · simp [List.append_assoc]
    · simp only [List.map_cons, hmap]
    · intro it hit
      rcases List.mem_cons.mp hit with heq | hmem
      · subst heq; exact ⟨rfl, rfl⟩
      · exact hprops it hmem

/-- Second run: over a store already holding every incoming dedup key, the
fold skips every email and leaves the store untouched. -/
theorem run2_skips (now : Int) (ai : AiOracle) (uid : Nat)
    (l : List GmailEmail) : ∀ (c : Counts) (st : Store),
    (∀ e ∈ l, (getWorkItemBySourceId st.items uid "gmail" e.id).isSome = true) →
    l.foldl (stepEmail now ai uid) (c, st) = (c.plus ⟨0, l.length, 0⟩, st) := by
  induction l with
  | nil => intro c st _; simp [Counts.plus_zero]
  | cons e l ih =>
    intro c st hx
    obtain ⟨w, hw⟩ := Option.isSome_iff_exists.mp (hx e (List.mem_cons_self e l))
    simp only [List.foldl_cons]
    rw [show stepEmail now ai uid (c, st) e = (c.bump .skipped, st) from by
      simp [stepEmail, processGmailEmail, hw]]
    rw [ih (c.bump .skipped) st (fun e' he' => hx e' (List.mem_cons_of_mem _ he'))]
    simp only [Prod.mk.injEq, List.length_cons]
    refine ⟨?_, trivial⟩
    cases c with
    | mk cc cs ce => simp [Counts.bump, Counts.plus]; omega

/-- C3: running the ingestion pipeline twice over the same upstream
messages is idempotent with respect to creation: with all messages valid,
mutually distinct, absent from the store, and the classifier succeeding,
the first run reports `created = n` (`skipped = errors = 0`) and the second
run reports `skipped = n` (`created = errors = 0`), because the dedup
point lookup on `(userId, "gmail", sourceId)` finds every row the first run
created. -/
theorem dedupIdempotent (now1 now2 : Int) (ai : AiOracle) (uid : Nat)
    (tok : String) (td : Option DateVal) (emails : List GmailEmail)
    (st0 : Store)
    (huid : uid ≠ 0) (htok : tok ≠ "") (htd : td ≠ some .invalid)
    (hne : emails ≠ [])
    (hvalid : ∀ e ∈ emails, validateEmailDate e (DateVal.toOption td) = true)
    (hnodup : (emails.map (fun e => e.id)).Nodup)
    (hfresh : ∀ e ∈ emails,
      getWorkItemBySourceId st0.items uid "gmail" e.id = none)
    (hai : ∀ e ∈ emails, (ai (validateEmailContent e).body).isSome = true) :
    (processGmailEmails now1 ai uid tok td emails st0).1 =
      ⟨emails.length, 0, 0⟩ ∧
    (processGmailEmails now2 ai uid tok td emails
        (processGmailEmails now1 ai uid tok td emails st0).2).1 =
      ⟨0, emails.length, 0⟩ := by
  have hfilter : emails.filter
      (fun e => validateEmailDate e (DateVal.toOption td)) = emails :=
    List.filter_eq_self.mpr hvalid
  have hids : (emails.map validateEmailContent).map (fun e => e.id) =
      emails.map (fun e => e.id) := by
    rw [List.map_map]
    exact List.map_congr_left (fun e _ => validateEmailContent_id e)
  have hflat1 := processGmailEmails_eq_flat now1 ai uid tok td emails st0
    huid htok htd hne
  rw [hfilter] at hflat1
  obtain ⟨news, heq1, hmap, hprops⟩ :=
    run1_creates now1 ai uid (emails.map validateEmailContent) ⟨0, 0, 0⟩ st0
      (fun e' he' => by
        obtain ⟨e, he, rfl⟩ := List.mem_map.mp he'
        rw [validateEmailContent_id]
        exact hfresh e he)
      (fun e' he' => by
        obtain ⟨e, he, rfl⟩ := List.mem_map.mp he'
        exact hai e he)
      (fun e' he' => by
        obtain ⟨e, he, rfl⟩ := List.mem_map.mp he'
        rw [validateEmailContent_internalDate]
        exact validateEmailDate_parse e _ (hvalid e he))
      (by rw [hids]; exact hnodup)
  have hlen : (emails.map validateEmailContent).length = emails.length :=
    List.length_map _ _
  have hr1 : processGmailEmails now1 ai uid tok td emails st0 =
      (Counts.plus ⟨0, 0, 0⟩ ⟨(emails.map validateEmailContent).length, 0, 0⟩,
       ⟨st0.items ++ news,
        st0.nextId + (emails.map validateEmailContent).length⟩) := by
    rw [hflat1, heq1]
  constructor
  · rw [hr1]
    simp [Counts.zero_plus, hlen]
  · have hflat2 := processGmailEmails_eq_flat now2 ai uid tok td emails
      ((processGmailEmails now1 ai uid tok td emails st0).2) huid htok htd hne
    rw [hfilter] at hflat2
    have hsome : ∀ e' ∈ emails.map validateEmailContent,
        (getWorkItemBySourceId
          ((processGmailEmails now1 ai uid tok td emails st0).2).items
          uid "gmail" e'.id).isSome = true := by
      intro e' he'
      obtain ⟨e, he, rfl⟩ := List.mem_map.mp he'
      rw [validateEmailContent_id, hr1]
      rw [getWorkItemBySourceId_isSome_iff]
      have hmem : e.id ∈ news.map (fun it => it.sourceId) := by
        rw [hmap, hids]
        exact List.mem_map_of_mem _ he
      obtain ⟨it, hit, hsid⟩ := List.mem_map.mp hmem
      exact ⟨it, List.mem_append.mpr (Or.inr hit), (hprops it hit).1,
        (hprops it hit).2, hsid⟩
    rw [hflat2,
      run2_skips now2 ai uid (emails.map validateEmailContent) ⟨0, 0, 0⟩ _ hsome]
    simp [Counts.zero_plus, hlen]

/-- Closed witness for `dedupIdempotent`: two distinct valid emails against
an empty store; the first run creates 2, the second run skips 2. -/
theorem dedupIdempotent_witness :
    (processGmailEmails 100 (fun _ => some ⟨"fyi", "s", none⟩) 1 "tok" none
        [⟨"g1", "A", "", "hello", some "1753351200000"⟩,
         ⟨"g2", "B", "", "world", some "1753405200000"⟩] ⟨[], 1⟩).1 =
      ⟨2, 0, 0⟩ ∧
    (processGmailEmails 200 (fun _ => some ⟨"fyi", "s", none⟩) 1 "tok" none
        [⟨"g1", "A", "", "hello", some "1753351200000"⟩,
         ⟨"g2", "B", "", "world", some "1753405200000"⟩]
        (processGmailEmails 100 (fun _ => some ⟨"fyi", "s", none⟩) 1 "tok" none
          [⟨"g1", "A", "", "hello", some "1753351200000"⟩,
           ⟨"g2", "B", "", "world", some "1753405200000"⟩] ⟨[], 1⟩).2).1 =
      ⟨0, 2, 0⟩ := by
  have h := dedupIdempotent 100 200 (fun _ => some ⟨"fyi", "s", none⟩) 1 "tok"
    none
    [⟨"g1", "A", "", "hello", some "1753351200000"⟩,
     ⟨"g2", "B", "", "world", some "1753405200000"⟩] ⟨[], 1⟩
    (by decide) (by decide) (by decide) (by decide) (by decide) (by decide)
    (by decide) (by decide)
  exact ⟨h.1, h.2⟩

/-! ### `sourceDate` validity -/

/-- A constructed `Date` is a valid instant. -/
theorem mkDateMs_valid (x t : Int) (h : mkDateMs x = some t) :
    isValidInstant t = true := by
  unfold mkDateMs at h
  by_cases hv : isValidInstant x = true
  · rw [if_pos hv] at h
    injection h with h'
    subst h'
    exact hv
  · rw [if_neg hv] at h
    cases h

/-- A successfully parsed date string is a valid instant. -/
theorem jsDateParse_valid (s : String) (t : Int) (h : jsDateParse s = some t) :
    isValidInstant t = true := by
  unfold jsDateParse at h
  repeat' split at h
  all_goals first
    | exact mkDateMs_valid _ _ h
    | cases h

/-- A successfully parsed Gmail `internalDate` is a valid instant. -/
theorem parseGmailDate_valid (s : String) (t : Int)
    (h : parseGmailDate s = some t) : isValidInstant t = true := by
  unfold parseGmailDate at h
  cases hj : jsParseInt s with
  | some n => rw [hj] at h; simp only [] at h; exact mkDateMs_valid n t h
  | none => rw [hj] at h; simp only [] at h; exact jsDateParse_valid s t h

/-- The Slack `sourceDate` normalization yields a valid instant whenever the
wall clock is one. -/
theorem slackSourceDate_valid (now : Int) (msgId : String)
    (hnow : isValidInstant now = true) :
    isValidInstant (slackSourceDate now msgId) = true := by
  unfold slackSourceDate
  cases hj : jsParseInt msgId with
  | none => exact hnow
  | some ts =>
    simp only []
    cases hm : mkDateMs (ts * 1000) with
    | none => exact hnow
    | some d => exact mkDateMs_valid _ _ hm

/-- An unparsable Slack timestamp is normalized to the current time. -/
theorem slackSourceDate_unparsable (now : Int) (msgId : String)
    (h : jsParseInt msgId = none) : slackSourceDate now msgId = now := by
  unfold slackSourceDate
  rw [h]

/-- Invariant: every stored `sourceDate`, when present, is a valid instant. -/
def sourceDatesValid (items : List WorkItem) : Prop :=
  ∀ it ∈ items, ∀ t, it.sourceDate = some t → isValidInstant t = true

theorem sourceDatesValid_append_single (items : List WorkItem) (it0 : WorkItem)
    (h : sourceDatesValid items)
    (h0 : ∀ t, it0.sourceDate = some t → isValidInstant t = true) :
    sourceDatesValid (items ++ [it0]) := by
  intro it hit t ht
  rcases List.mem_append.mp hit with hm | hm
  · exact h it hm t ht
  · rw [List.mem_singleton.mp hm] at ht
    exact h0 t ht

theorem sourceDatesValid_processGmailEmail (now : Int) (ai : AiOracle)
    (uid : Nat) (st : Store) (e : GmailEmail)
    (h : sourceDatesValid st.items) :
    sourceDatesValid (processGmailEmail now ai uid st e).2.items := by
  unfold processGmailEmail
  cases hdup : getWorkItemBySourceId st.items uid "gmail" e.id with
  | some w => exact h
  | none =>
    cases hA : ai e.body with
    | none => exact h
    | some a =>
      cases hint : e.internalDate with
      | none => exact h
      | some s =>
        simp only []
        cases hp : parseGmailDate s with
        | none => exact h
        | some t0 =>
          refine sourceDatesValid_append_single st.items _ h ?_
          intro t ht
          injection ht with ht'
          subst ht'
          exact parseGmailDate_valid s t0 hp

theorem sourceDatesValid_processSlackMessage (now : Int) (ai : AiOracle)
    (uid : Nat) (st : Store) (m : SlackMessage)
    (hnow : isValidInstant now = true) (h : sourceDatesValid st.items) :
    sourceDatesValid (processSlackMessage now ai uid st m).2.items := by
  unfold processSlackMessage
  cases hdup : getWorkItemBySourceId st.items uid "slack" m.id with
  | some w => exact h
  | none =>
    cases hA : ai m.text with
    | none => exact h
    | some a =>
      refine sourceDatesValid_append_single st.items _ h ?_
      intro t ht
      injection ht with ht'
      subst ht'
      exact slackSourceDate_valid now m.id hnow

theorem sourceDatesValid_foldl_gmail (now : Int) (ai : AiOracle) (uid : Nat)
    (l : List GmailEmail) : ∀ (c : Counts) (st : Store),
    sourceDatesValid st.items →
    sourceDatesValid ((l.foldl (stepEmail now ai uid) (c, st)).2.items) := by
  induction l with
  | nil => intro c st h; exact h
  | cons e l ih =>
    intro c st h
    simp only [List.foldl_cons]
    exact ih _ _ (sourceDatesValid_processGmailEmail now ai uid st e h)

theorem sourceDatesValid_foldl_slack (now : Int) (ai : AiOracle) (uid : Nat)
    (l : List SlackMessage) (hnow : isValidInstant now = true) :
    ∀ (c : Counts) (st : Store),
    sourceDatesValid st.items →
    sourceDatesValid ((l.foldl (fun acc m =>
        let r := processSlackMessage now ai uid acc.2 m
        (acc.1.bump r.1, r.2)) (c, st)).2.items) := by
  induction l with
  | nil => intro c st h; exact h
  | cons m l ih =>
    intro c st h
    simp only [List.foldl_cons]
    exact ih _ _ (sourceDatesValid_processSlackMessage now ai uid st m hnow h)

/-- A Gmail pipeline run either early-exits with the store untouched or is
the flat per-email fold. -/
theorem processGmailEmails_cases (now : Int) (ai : AiOracle) (uid : Nat)
    (tok : String) (td : Option DateVal) (emails : List GmailEmail)
    (st : Store) :
    processGmailEmails now ai uid tok td emails st = (⟨0, 0, 0⟩, st) ∨
    processGmailEmails now ai uid tok td emails st =
      ((emails.filter (fun e => validateEmailDate e (DateVal.toOption td))).map
        validateEmailContent).foldl (stepEmail now ai uid) (⟨0, 0, 0⟩, st) := by
  by_cases huid : uid = 0
  · left; unfold processGmailEmails; simp [huid]
  by_cases htok : tok = ""
  · left; unfold processGmailEmails; simp [htok]
  by_cases htd : td = some DateVal.invalid
  · left; unfold processGmailEmails
    simp [beq_eq_false_iff_ne.mpr huid, beq_eq_false_iff_ne.mpr htok, htd]
  by_cases hne : emails = []
  · left; unfold processGmailEmails
    simp [beq_eq_false_iff_ne.mpr huid, beq_eq_false_iff_ne.mpr htok,
      beq_eq_false_iff_ne.mpr htd, hne]
  · right
    exact processGmailEmails_eq_flat now ai uid tok td emails st huid htok htd hne

/-- A Slack pipeline run either early-exits with the store untouched or is
the sequential per-message fold. -/
theorem processSlackMessages_cases (now : Int) (ai : AiOracle) (uid : Nat)
    (tok : String) (td : Option DateVal) (msgs : List SlackMessage)
    (st : Store) :
    processSlackMessages now ai uid tok td msgs st = (⟨0, 0, 0⟩, st) ∨
    processSlackMessages now ai uid tok td msgs st =
      (msgs.filter (slackMessageValid (DateVal.toOption td))).foldl
        (fun acc m =>
          let r := processSlackMessage now ai uid acc.2 m
          (acc.1.bump r.1, r.2)) (⟨0, 0, 0⟩, st) := by
  by_cases huid : uid = 0
  · left; unfold processSlackMessages; simp [huid]
  by_cases htok : tok = ""
  · left; unfold processSlackMessages; simp [htok]
  by_cases htd : td = some DateVal.invalid
  · left; unfold processSlackMessages
    simp [beq_eq_false_iff_ne.mpr huid, beq_eq_false_iff_ne.mpr htok, htd]
  by_cases hne : msgs = []
  · left; unfold processSlackMessages
    simp [beq_eq_false_iff_ne.mpr huid, beq_eq_false_iff_ne.mpr htok,
      beq_eq_false_iff_ne.mpr htd, hne]
  · right
    unfold processSlackMessages
    have h0 : (uid == 0 || tok == "") = false := by
      simp [beq_eq_false_iff_ne.mpr huid, beq_eq_false_iff_ne.mpr htok]
    have h1 : (td == some DateVal.invalid) = false := beq_eq_false_iff_ne.mpr htd
    have h2 : msgs.isEmpty = false := by
      cases msgs with
      | nil => exact absurd rfl hne
      | cons a l => rfl
    rw [h0, h1, h2]
    simp only [Bool.false_eq_true, if_false]
    by_cases hv : (msgs.filter
        (slackMessageValid (DateVal.toOption td))).isEmpty = true
    · rw [if_pos hv, List.isEmpty_iff.mp hv]
      rfl
    · rw [if_neg hv]

/-- C6 counterexample: a Slack message with unparsable native timestamp
("garbage") IS created, but stored with `sourceDate` present and equal to
the ingestion wall-clock — not normalized to absent; on the Gmail side an
email whose timestamp fails the processing-stage re-parse is rejected as an
error rather than stored with `sourceDate` absent. -/
theorem sourceDateAbsent_counterexample :
    ((processSlackMessage 1753401600000 (fun _ => some ⟨"fyi", "s", none⟩) 1
        ⟨[], 1⟩ ⟨"garbage", "hello", "c"⟩).2.items.map
      (fun it => it.sourceDate)) = [some 1753401600000] ∧
    (processSlackMessage 1753401600000 (fun _ => some ⟨"fyi", "s", none⟩) 1
        ⟨[], 1⟩ ⟨"garbage", "hello", "c"⟩).1 = .created ∧
    processGmailEmail 0 (fun _ => some ⟨"fyi", "s", none⟩) 1 ⟨[], 1⟩
        ⟨"g3", "C", "", "x", some "garbage"⟩ = (.error, ⟨[], 1⟩) :=
  ⟨by decide, by decide, by decide⟩

/-- C6 amended: every persisted `sourceDate`, when present, is a valid
instant (both pipelines preserve the invariant), but invalid values are not
normalized to absent: the Slack pipeline normalizes an unparsable timestamp
to the current time (the record is still created), and the Gmail processing
stage rejects (counts as error, does not store) a record whose timestamp
does not re-parse. -/
theorem sourceDate_validity (now : Int) (ai : AiOracle) (uid : Nat)
    (tok : String) (td : Option DateVal) (st : Store)
    (hnow : isValidInstant now = true)
    (hst : sourceDatesValid st.items) :
    (∀ emails, sourceDatesValid
      (processGmailEmails now ai uid tok td emails st).2.items) ∧
    (∀ msgs, sourceDatesValid
      (processSlackMessages now ai uid tok td msgs st).2.items) ∧
    (∀ msgId, jsParseInt msgId = none → slackSourceDate now msgId = now) ∧
    (∀ (e : GmailEmail) (st' : Store),
      getWorkItemBySourceId st'.items uid "gmail" e.id = none →
      (∀ s, e.internalDate = some s → parseGmailDate s = none) →
      processGmailEmail now ai uid st' e = (.error, st')) := by
  refine ⟨?_, ?_, ?_, ?_⟩
  · intro emails
    rcases processGmailEmails_cases now ai uid tok td emails st with h | h
    · rw [h]; exact hst
    · rw [h]; exact sourceDatesValid_foldl_gmail now ai uid _ _ _ hst
  · intro msgs
    rcases processSlackMessages_cases now ai uid tok td msgs st with h | h
    · rw [h]; exact hst
    · rw [h]; exact sourceDatesValid_foldl_slack now ai uid _ hnow _ _ hst
  · exact fun msgId h => slackSourceDate_unparsable now msgId h
  · intro e st' hdup hbad
    unfold processGmailEmail
    rw [hdup]
    simp only []
    cases hA : ai e.body with
    | none => rfl
    | some a =>
      simp only []
      cases hint : e.internalDate with
      | none => rfl
      | some s =>
        simp only []
        rw [hbad s hint]

/-- Closed witness for `sourceDate_validity`: the invariant holds after a
Slack run ingesting a garbage-timestamped message, and that message's
`sourceDate` was normalized to the current time. -/
theorem sourceDate_validity_witness :
    isValidInstant 1753401600000 = true ∧
    sourceDatesValid
      (processSlackMessages 1753401600000 (fun _ => some ⟨"fyi", "s", none⟩) 1
        "tok" none [⟨"garbage", "hello", "c"⟩] ⟨[], 1⟩).2.items ∧
    slackSourceDate 1753401600000 "garbage" = 1753401600000 := by
  have h := sourceDate_validity 1753401600000 (fun _ => some ⟨"fyi", "s", none⟩)
    1 "tok" none ⟨[], 1⟩ (by decide)
    (by intro it hit t ht; simp at hit)
  exact ⟨by decide, h.2.1 [⟨"garbage", "hello", "c"⟩],
    h.2.2.1 "garbage" (by decide)⟩

end CogOffload
